import Mathlib

/-!
Verification of the block-synchronization and transaction-scanning engine
(`src/lib/WalletSynchronizer.ts`) of the kryptokrona wallet backend.

The TypeScript class `WalletSynchronizer` is shallowly embedded below:
its mutable fields become a `WalletSynchronizer` structure threaded
explicitly, the daemon and key-management collaborators become function
records (`IDaemon`, `SubWallets`), JS `Map<string, number>` becomes an
insertion-ordered association list with JS `Map.set` semantics, and the
`throw` in `getBlocks` becomes an `Except` result carried alongside the
post-call state (in JS, field mutations performed before a throw survive
the throw, so the post-state is always meaningful).
-/

namespace WalletBackend

/-- A key-input of a raw transaction: amount in atomic units and the
key image (global dedup key for spends). From `Types.ts` (`KeyInput`). -/
structure KeyInput where
  amount : Nat
  keyImage : String
deriving DecidableEq, Repr

/-- An output of a raw transaction, opaque to the synchronizer core;
carried so that the intended `processTransactionOutputs` contract can be
stated. -/
structure KeyOutput where
  amount : Nat
  key : String
deriving DecidableEq, Repr

/-- A coinbase raw transaction: hash, outputs, transaction public key,
unlock time. From `Types.ts` (`RawCoinbaseTransaction`). -/
structure RawCoinbaseTransaction where
  keyOutputs : List KeyOutput
  hash : String
  transactionPublicKey : String
  unlockTime : Nat
deriving DecidableEq, Repr

/-- A non-coinbase raw transaction: a coinbase transaction plus payment
ID and key-inputs. From `Types.ts` (`RawTransaction`). -/
structure RawTransaction extends RawCoinbaseTransaction where
  paymentID : String
  keyInputs : List KeyInput
deriving DecidableEq, Repr

/-- A block as returned by the daemon. Only `blockHeight` is inspected
by `getBlocks`. -/
structure Block where
  coinbaseTransaction : Option RawCoinbaseTransaction
  transactions : List RawTransaction
  blockHeight : Nat
  blockHash : String
  blockTimestamp : Nat
deriving DecidableEq, Repr

/-- The transfer map of one transaction: JS `Map<string, number>` from
owner public spend key to accumulated amount, modelled as an
insertion-ordered association list. -/
abbrev TransferMap := List (String × Nat)

/-- JS `transfers.get(k) || 0`: the amount pending for owner `k`, or 0. -/
def mapGetD (m : TransferMap) (k : String) : Nat :=
  match m.find? (fun p => p.1 == k) with
  | some p => p.2
  | none => 0

/-- JS `Map.set`: update the value in place if the key is present
(keeping its insertion position), otherwise append the binding. -/
def mapSet (m : TransferMap) (k : String) (v : Nat) : TransferMap :=
  match m with
  | [] => [(k, v)]
  | (k2, v2) :: rest =>
    if k2 == k then (k, v) :: rest else (k2, v2) :: mapSet rest k v

/-- A derived ledger `Transaction` record, created only by the scanner.
From `Types.ts` (`Transaction`). -/
structure Transaction where
  transfers : TransferMap
  hash : String
  fee : Int
  blockTimestamp : Nat
  blockHeight : Nat
  paymentID : String
  unlockTime : Nat
  isCoinbase : Bool
deriving DecidableEq, Repr

/-- The mutable accumulator threaded through scanning of one batch:
transactions to add and (owner public spend key, key image) pairs to
mark spent. From `Types.ts` (`TransactionData`). -/
structure TransactionData where
  transactionsToAdd : List Transaction
  keyImagesToMarkSpent : List (String × String)
deriving DecidableEq, Repr

/-- The key-management collaborator (`SubWallets`): `getKeyImageOwner`
answers whether a key image belongs to this wallet and, if so, under
which public spend key. -/
structure SubWallets where
  getKeyImageOwner : String → Bool × String

/-- The remote-node collaborator (`IDaemon`): the local daemon block
count and the sync-data call, which can fail with a transport error. -/
structure IDaemon where
  getLocalDaemonBlockCount : Nat
  getWalletSyncData : List String → Nat → Nat → Except String (List Block)

/-- `WalletSynchronizer.processTransactionInputs`: walk the key-inputs,
summing every amount into `sumOfInputs`; for each input whose key image
the key-management collaborator reports as owned, add its amount to the
owner's pending amount in the transfer map and push an
(owner, key image) pair onto `keyImagesToMarkSpent`. The imperative loop
is embedded as structural recursion over the input list, threading the
transfers map and the accumulator exactly as the loop body mutates them. -/
def processTransactionInputs (sub : SubWallets) (keyInputs : List KeyInput)
    (transfers : TransferMap) (blockHeight : Nat) (txData : TransactionData) :
    Nat × TransferMap × TransactionData :=
  match keyInputs with
  | [] => (0, transfers, txData)
  | input :: rest =>
    let fo := sub.getKeyImageOwner input.keyImage
    let transfers2 :=
      if fo.1 then mapSet transfers fo.2 (mapGetD transfers fo.2 + input.amount)
      else transfers
    let txData2 :=
      if fo.1 then
        { txData with
          keyImagesToMarkSpent := txData.keyImagesToMarkSpent ++ [(fo.2, input.keyImage)] }
      else txData
    let r := processTransactionInputs sub rest transfers2 blockHeight txData2
    (input.amount + r.1, r.2)

/-- `WalletSynchronizer.processTransactionOutputs` as it stands in the
source: a `/* TODO */` stub that returns sum 0 and leaves the transfer
map and the accumulator untouched. -/
def processTransactionOutputs (rawTX : RawCoinbaseTransaction)
    (transfers : TransferMap) (blockHeight : Nat) (txData : TransactionData) :
    Nat × TransferMap × TransactionData :=
  (0, transfers, txData)

/-- The contract for output scanning that the spec states (sum of all
output amounts), used only to witness that the stub diverges from it. -/
def specOutputSum (rawTX : RawCoinbaseTransaction) : Nat :=
  (rawTX.keyOutputs.map KeyOutput.amount).sum

/-- `WalletSynchronizer.processTransaction`: scan inputs then outputs
against a fresh transfer map; if the resulting map is non-empty, append
exactly one non-coinbase `Transaction` with
`fee = sumOfInputs - sumOfOutputs` and the raw transaction's hash,
payment ID and unlock time. -/
def processTransaction (sub : SubWallets) (rawTX : RawTransaction)
    (blockTimestamp blockHeight : Nat) (txData : TransactionData) :
    TransactionData :=
  let r1 := processTransactionInputs sub rawTX.keyInputs [] blockHeight txData
  let sumOfInputs := r1.1
  let r2 := processTransactionOutputs rawTX.toRawCoinbaseTransaction r1.2.1
    blockHeight r1.2.2
  let sumOfOutputs := r2.1
  let transfers := r2.2.1
  let txData2 := r2.2.2
  if transfers.isEmpty then txData2
  else
    let fee : Int := (sumOfInputs : Int) - (sumOfOutputs : Int)
    let tx : Transaction :=
      ⟨transfers, rawTX.hash, fee, blockTimestamp, blockHeight,
       rawTX.paymentID, rawTX.unlockTime, false⟩
    { txData2 with transactionsToAdd := txData2.transactionsToAdd ++ [tx] }

/-- `WalletSynchronizer.processCoinbaseTransaction`: scan only outputs;
if the transfer map is non-empty, append one coinbase `Transaction` with
fee 0 and empty payment ID. -/
def processCoinbaseTransaction (rawTX : RawCoinbaseTransaction)
    (blockTimestamp blockHeight : Nat) (txData : TransactionData) :
    TransactionData :=
  let r := processTransactionOutputs rawTX [] blockHeight txData
  let transfers := r.2.1
  let txData2 := r.2.2
  if transfers.isEmpty then txData2
  else
    let tx : Transaction :=
      ⟨transfers, rawTX.hash, 0, blockTimestamp, blockHeight,
       "", rawTX.unlockTime, true⟩
    { txData2 with transactionsToAdd := txData2.transactionsToAdd ++ [tx] }

/-- Modelled from the spec: the Checkpoint Tracker
(`SynchronizationStatus`, imported by the source but not itself under
`src/`) holds the wallet's current synchronized height and the bounded,
most-recent-first window of recent block hashes used for fork
detection. -/
structure SynchronizationStatus where
  blockHashCheckpoints : List String
  lastKnownBlockHeight : Nat
deriving DecidableEq, Repr

/-- Modelled from the spec: `currentHeight()` — the last confirmed
synced height, 0 if nothing synced (`SynchronizationStatus.getHeight`). -/
def SynchronizationStatus.getHeight (s : SynchronizationStatus) : Nat :=
  s.lastKnownBlockHeight

/-- Modelled from the spec: `recentHashes()` — the checkpoint window,
most-recent-first (`SynchronizationStatus.getBlockHashCheckpoints`). -/
def SynchronizationStatus.getBlockHashCheckpoints
    (s : SynchronizationStatus) : List String :=
  s.blockHashCheckpoints

/-- Modelled from the spec: the Checkpoint Tracker's serialized form —
current height plus checkpoint window (`SynchronizationStatusJSON`). -/
structure SynchronizationStatusJSON where
  blockHashCheckpoints : List String
  lastKnownBlockHeight : Nat
deriving DecidableEq, Repr

/-- Modelled from the spec: `SynchronizationStatus.toJSON` — serialize
the current height and checkpoint window. -/
def SynchronizationStatus.toJSON (s : SynchronizationStatus) :
    SynchronizationStatusJSON :=
  ⟨s.blockHashCheckpoints, s.lastKnownBlockHeight⟩

/-- Modelled from the spec: `SynchronizationStatus.fromJSON` — restore
the tracker from its serialized form; the round-trip must reproduce
`currentHeight`/`recentHashes` exactly. -/
def SynchronizationStatus.fromJSON (j : SynchronizationStatusJSON) :
    SynchronizationStatus :=
  ⟨j.blockHashCheckpoints, j.lastKnownBlockHeight⟩

/-- The mutable fields of the `WalletSynchronizer` class. The `daemon`
and `subWallets` collaborator references are passed to the operations
explicitly rather than stored. -/
structure WalletSynchronizer where
  startTimestamp : Nat
  startHeight : Nat
  privateViewKey : String
  synchronizationStatus : SynchronizationStatus
deriving DecidableEq, Repr

/-- `WalletSynchronizerJSON` from `JsonSerialization.ts`: the persisted
structure holding the private view key, the resume points and the
serialized synchronization status. -/
structure WalletSynchronizerJSON where
  privateViewKey : String
  startHeight : Nat
  startTimestamp : Nat
  transactionSynchronizerStatus : SynchronizationStatusJSON
deriving DecidableEq, Repr

/-- `WalletSynchronizer.toJSON`. -/
def WalletSynchronizer.toJSON (ws : WalletSynchronizer) :
    WalletSynchronizerJSON :=
  ⟨ws.privateViewKey, ws.startHeight, ws.startTimestamp,
   ws.synchronizationStatus.toJSON⟩

/-- `WalletSynchronizer.fromJSON`: rebuild the synchronizer from the
persisted fields (`Object.assign` onto a bare prototype); the daemon and
key-management references are re-attached separately by the caller. -/
def WalletSynchronizer.fromJSON (json : WalletSynchronizerJSON) :
    WalletSynchronizer :=
  { startTimestamp := json.startTimestamp
    startHeight := json.startHeight
    privateViewKey := json.privateViewKey
    synchronizationStatus :=
      SynchronizationStatus.fromJSON json.transactionSynchronizerStatus }

/-- The full observable outcome of one `getBlocks` call: the returned
batch (or the thrown error message), the post-call synchronizer state
(in JS, mutations made before a throw survive it), the
`(timestamp, height)` arguments of each `convertSyncTimestampToHeight`
notification issued to the key-management collaborator, and whether
`getWalletSyncData` was invoked on the daemon. -/
structure GetBlocksResult where
  result : Except String (List Block)
  state : WalletSynchronizer
  pinNotifications : List (Nat × Nat)
  fetchCalled : Bool

/-- The message of the fatal first-sync height-mismatch error thrown by
`getBlocks`. -/
def heightMismatchError (expected actual : Nat) : String :=
  "Received unexpected block height from daemon. " ++
  "Expected " ++ toString expected ++ ", got " ++ toString actual ++ "\n"

/-- `WalletSynchronizer.getBlocks`: skip fetching when the local daemon
is behind the wallet; tolerate a failing `getWalletSyncData` call by
returning an empty batch; on the first non-empty batch received while
`startTimestamp != 0`, zero the timestamp, pin `startHeight` to the
first block's height and notify the key-management collaborator (with
the already-zeroed timestamp and the pinned height, exactly as the
source reads the mutated fields); on a first-ever sync (empty checkpoint
window) with no timestamp in play, throw if the first block's height is
not the expected `startHeight`. -/
def WalletSynchronizer.getBlocks (ws : WalletSynchronizer)
    (daemon : IDaemon) : GetBlocksResult :=
  let localDaemonBlockCount := daemon.getLocalDaemonBlockCount
  let walletBlockCount := ws.synchronizationStatus.getHeight
  if localDaemonBlockCount < walletBlockCount then
    ⟨Except.ok [], ws, [], false⟩
  else
    let blockCheckpoints := ws.synchronizationStatus.getBlockHashCheckpoints
    match daemon.getWalletSyncData blockCheckpoints ws.startHeight
        ws.startTimestamp with
    | Except.error _ => ⟨Except.ok [], ws, [], true⟩
    | Except.ok blocks =>
      match blocks with
      | [] => ⟨Except.ok [], ws, [], true⟩
      | b0 :: rest =>
        let pinStep : WalletSynchronizer × List (Nat × Nat) :=
          if ws.startTimestamp ≠ 0 then
            let ws2 : WalletSynchronizer :=
              { ws with startTimestamp := 0, startHeight := b0.blockHeight }
            (ws2, [(ws2.startTimestamp, ws2.startHeight)])
          else (ws, [])
        let ws2 := pinStep.1
        let pins := pinStep.2
        if blockCheckpoints.isEmpty then
          let actualHeight := b0.blockHeight
          if ws2.startTimestamp = 0 then
            if actualHeight ≠ ws2.startHeight then
              ⟨Except.error (heightMismatchError ws2.startHeight actualHeight),
               ws2, pins, true⟩
            else ⟨Except.ok (b0 :: rest), ws2, pins, true⟩
          else ⟨Except.ok (b0 :: rest), ws2, pins, true⟩
        else ⟨Except.ok (b0 :: rest), ws2, pins, true⟩

/-- The spend-markers the input scan is expected to emit: one
(owner, key image) pair per input whose key image the key-management
collaborator reports as owned. -/
def spentMarkers (sub : SubWallets) (keyInputs : List KeyInput) :
    List (String × String) :=
  (keyInputs.filter (fun i => (sub.getKeyImageOwner i.keyImage).1)).map
    (fun i => ((sub.getKeyImageOwner i.keyImage).2, i.keyImage))

/-- The total amount of the inputs owned by `k` according to the
key-management collaborator. -/
def ownedSum (sub : SubWallets) (keyInputs : List KeyInput) (k : String) :
    Nat :=
  ((keyInputs.filter (fun i => (sub.getKeyImageOwner i.keyImage).1 &&
      ((sub.getKeyImageOwner i.keyImage).2 == k))).map KeyInput.amount).sum

theorem mapGetD_nil (k : String) : mapGetD [] k = 0 := rfl

theorem mapGetD_cons (pk : String) (pv : Nat) (rest : TransferMap)
    (k : String) :
    mapGetD ((pk, pv) :: rest) k = if pk = k then pv else mapGetD rest k := by
  by_cases h : pk = k
  · subst h
    simp [mapGetD, List.find?_cons_of_pos]
  · have hne : (((pk, pv)).1 == k) = false := by simp [h]
    rw [mapGetD, List.find?_cons_of_neg _ (by simp [hne]), if_neg h]
    rfl

theorem mapGetD_mapSet (m : TransferMap) (k k2 : String) (v : Nat) :
    mapGetD (mapSet m k v) k2 = if k = k2 then v else mapGetD m k2 := by
  induction m with
  | nil =>
    by_cases h : k = k2 <;> simp [mapSet, mapGetD_cons, mapGetD_nil, h]
  | cons p rest ih =>
    obtain ⟨pk, pv⟩ := p
    by_cases hpk : pk = k
    · subst hpk
      by_cases h : pk = k2 <;> simp [mapSet, mapGetD_cons, h]
    · have hne : (pk == k) = false := by simp [hpk]
      by_cases h : pk = k2 <;> by_cases hk : k = k2 <;>
        simp_all [mapSet, mapGetD_cons, hne]

theorem processTransactionInputs_transactionsToAdd (sub : SubWallets)
    (keyInputs : List KeyInput) (transfers : TransferMap) (bh : Nat)
    (td : TransactionData) :
    (processTransactionInputs sub keyInputs transfers bh td).2.2.transactionsToAdd
      = td.transactionsToAdd := by
  induction keyInputs generalizing transfers td with
  | nil => rfl
  | cons i rest ih =>
    simp only [processTransactionInputs]
    split <;> simp [ih]

theorem processTransactionInputs_sum (sub : SubWallets)
    (keyInputs : List KeyInput) (transfers : TransferMap) (bh : Nat)
    (td : TransactionData) :
    (processTransactionInputs sub keyInputs transfers bh td).1
      = (keyInputs.map KeyInput.amount).sum := by
  induction keyInputs generalizing transfers td with
  | nil => rfl
  | cons i rest ih =>
    simp only [processTransactionInputs, List.map_cons, List.sum_cons]
    split <;> simp [ih]

theorem processTransactionInputs_keyImages (sub : SubWallets)
    (keyInputs : List KeyInput) (transfers : TransferMap) (bh : Nat)
    (td : TransactionData) :
    (processTransactionInputs sub keyInputs transfers bh td).2.2.keyImagesToMarkSpent
      = td.keyImagesToMarkSpent ++ spentMarkers sub keyInputs := by
  induction keyInputs generalizing transfers td with
  | nil => simp [processTransactionInputs, spentMarkers]
  | cons i rest ih =>
    simp only [processTransactionInputs]
    by_cases h : (sub.getKeyImageOwner i.keyImage).1
    · simp [h, ih, spentMarkers, List.filter_cons]
    · simp [h, ih, spentMarkers, List.filter_cons]

theorem processTransactionInputs_transfers (sub : SubWallets)
    (keyInputs : List KeyInput) (transfers : TransferMap) (bh : Nat)
    (td : TransactionData) (k : String) :
    mapGetD (processTransactionInputs sub keyInputs transfers bh td).2.1 k
      = mapGetD transfers k + ownedSum sub keyInputs k := by
  induction keyInputs generalizing transfers td with
  | nil => simp [processTransactionInputs, ownedSum]
  | cons i rest ih =>
    simp only [processTransactionInputs]
    by_cases h : (sub.getKeyImageOwner i.keyImage).1
    · by_cases hk : (sub.getKeyImageOwner i.keyImage).2 = k
      · simp only [h, if_true, ih, mapGetD_mapSet, hk, if_true,
          ownedSum, List.filter_cons, hk, h]
        simp [ownedSum, List.filter_cons, h, hk]
        omega
      · simp only [h, if_true, ih, mapGetD_mapSet, hk, if_false]
        simp [ownedSum, List.filter_cons, h, hk]
    · simp only [h, if_false, ih]
      simp [ownedSum, List.filter_cons, h]

/-- C5: `processTransactionInputs` returns as its first component the sum
of all input amounts regardless of ownership; each input whose key image
the key-management collaborator reports as owned has its amount added
under the returned owner in the transfer map (summing with any amount
already pending for that owner) and a matching (owner, key image)
spend-marker appended; inputs reported not owned change neither the
transfer map nor the spend-markers (and the transaction list is never
touched). -/
theorem processTransactionInputs_spec (sub : SubWallets)
    (keyInputs : List KeyInput) (transfers : TransferMap) (bh : Nat)
    (td : TransactionData) :
    (processTransactionInputs sub keyInputs transfers bh td).1
      = (keyInputs.map KeyInput.amount).sum ∧
    (∀ k, mapGetD (processTransactionInputs sub keyInputs transfers bh td).2.1 k
      = mapGetD transfers k + ownedSum sub keyInputs k) ∧
    (processTransactionInputs sub keyInputs transfers bh td).2.2.keyImagesToMarkSpent
      = td.keyImagesToMarkSpent ++ spentMarkers sub keyInputs ∧
    (processTransactionInputs sub keyInputs transfers bh td).2.2.transactionsToAdd
      = td.transactionsToAdd :=
  ⟨processTransactionInputs_sum sub keyInputs transfers bh td,
   fun k => processTransactionInputs_transfers sub keyInputs transfers bh td k,
   processTransactionInputs_keyImages sub keyInputs transfers bh td,
   processTransactionInputs_transactionsToAdd sub keyInputs transfers bh td⟩

/-- A raw coinbase transaction with a single output of amount 5, used to
exhibit the divergence of the `processTransactionOutputs` stub from the
specified output-scanning contract. -/
def txOneOutput : RawCoinbaseTransaction :=
  ⟨[⟨5, "outKey"⟩], "txHashOut", "txPubKey", 0⟩

/-- C3: the source's `processTransactionOutputs` is a `/* TODO */` stub:
on a transaction with one output of amount 5 it returns total 0 (the
spec's contract demands the sum of all output amounts, 5) and leaves the
transfer map untouched without ever consulting the key-management
collaborator. -/
theorem processTransactionOutputs_stub_diverges :
    (processTransactionOutputs txOneOutput [] 10 ⟨[], []⟩).1 = 0 ∧
    specOutputSum txOneOutput = 5 ∧
    (0 : Nat) ≠ 5 ∧
    (processTransactionOutputs txOneOutput [] 10 ⟨[], []⟩).2.1 = [] ∧
    (processTransactionOutputs txOneOutput [] 10 ⟨[], []⟩).2.2 = ⟨[], []⟩ := by
  refine ⟨rfl, rfl, by decide, rfl, rfl⟩

/-- C4: `processTransaction` appends no `Transaction` record when the
transfer map produced by scanning inputs then outputs is empty; when the
map is non-empty exactly one non-coinbase record is appended, with
`fee = sumOfInputs - sumOfOutputs` exactly and the raw transaction's
hash, payment ID and unlock time. -/
theorem processTransaction_spec (sub : SubWallets) (rawTX : RawTransaction)
    (bt bh : Nat) (td : TransactionData)
    (si : Nat) (tr1 : TransferMap) (td1 : TransactionData)
    (so : Nat) (tr2 : TransferMap) (td2 : TransactionData)
    (h1 : processTransactionInputs sub rawTX.keyInputs [] bh td
      = (si, tr1, td1))
    (h2 : processTransactionOutputs rawTX.toRawCoinbaseTransaction tr1 bh td1
      = (so, tr2, td2)) :
    td2.transactionsToAdd = td.transactionsToAdd ∧
    (tr2 = [] → processTransaction sub rawTX bt bh td = td2) ∧
    (tr2 ≠ [] → processTransaction sub rawTX bt bh td =
      { td2 with transactionsToAdd := td2.transactionsToAdd ++
          [⟨tr2, rawTX.hash, (si : Int) - (so : Int), bt, bh,
            rawTX.paymentID, rawTX.unlockTime, false⟩] }) := by
  have hstub : (so, tr2, td2) = (0, tr1, td1) := h2.symm.trans rfl
  obtain ⟨hso, htr, htd⟩ :
      so = 0 ∧ tr2 = tr1 ∧ td2 = td1 := by
    injection hstub with a b
    injection b with b c
    exact ⟨a, b, c⟩
  have hta : td2.transactionsToAdd = td.transactionsToAdd := by
    have h := processTransactionInputs_transactionsToAdd sub
      rawTX.keyInputs [] bh td
    rw [h1] at h
    rw [htd]
    exact h
  refine ⟨hta, ?_, ?_⟩
  · intro hemp
    simp only [processTransaction, h1, h2]
    simp [hemp]
  · intro hne
    simp only [processTransaction, h1, h2]
    simp [List.isEmpty_iff, hne]

/-- C10: every scanning operation is append-only on the accumulator:
for every input, `transactionsToAdd` and `keyImagesToMarkSpent` before
the call are a prefix of (hence present, in order, in) the lists after
the call, for `processTransactionInputs`, `processTransaction` and
`processCoinbaseTransaction` alike. -/
theorem scanning_append_only (sub : SubWallets) :
    (∀ (keyInputs : List KeyInput) (transfers : TransferMap) (bh : Nat)
        (td : TransactionData),
      td.transactionsToAdd <+:
        (processTransactionInputs sub keyInputs transfers bh td).2.2.transactionsToAdd ∧
      td.keyImagesToMarkSpent <+:
        (processTransactionInputs sub keyInputs transfers bh td).2.2.keyImagesToMarkSpent) ∧
    (∀ (rawTX : RawTransaction) (bt bh : Nat) (td : TransactionData),
      td.transactionsToAdd <+:
        (processTransaction sub rawTX bt bh td).transactionsToAdd ∧
      td.keyImagesToMarkSpent <+:
        (processTransaction sub rawTX bt bh td).keyImagesToMarkSpent) ∧
    (∀ (rawTX : RawCoinbaseTransaction) (bt bh : Nat) (td : TransactionData),
      td.transactionsToAdd <+:
        (processCoinbaseTransaction rawTX bt bh td).transactionsToAdd ∧
      td.keyImagesToMarkSpent <+:
        (processCoinbaseTransaction rawTX bt bh td).keyImagesToMarkSpent) := by
  refine ⟨?_, ?_, ?_⟩
  · intro keyInputs transfers bh td
    rw [processTransactionInputs_transactionsToAdd,
      processTransactionInputs_keyImages]
    exact ⟨List.prefix_refl _, List.prefix_append _ _⟩
  · intro rawTX bt bh td
    simp only [processTransaction, processTransactionOutputs]
    split
    · rw [processTransactionInputs_transactionsToAdd,
        processTransactionInputs_keyImages]
      exact ⟨List.prefix_refl _, List.prefix_append _ _⟩
    · constructor
      · refine List.IsPrefix.trans ?_ (List.prefix_append _ _)
        rw [processTransactionInputs_transactionsToAdd]
      · show td.keyImagesToMarkSpent <+:
          (processTransactionInputs sub rawTX.keyInputs [] bh td).2.2.keyImagesToMarkSpent
        rw [processTransactionInputs_keyImages]
        exact List.prefix_append _ _
  · intro rawTX bt bh td
    simp only [processCoinbaseTransaction, processTransactionOutputs]
    split
    · exact ⟨List.prefix_refl _, List.prefix_refl _⟩
    · exact ⟨List.prefix_append _ _, List.prefix_refl _⟩

theorem getBlocks_eq_of_behind (ws : WalletSynchronizer) (daemon : IDaemon)
    (h : daemon.getLocalDaemonBlockCount <
      ws.synchronizationStatus.getHeight) :
    ws.getBlocks daemon = ⟨Except.ok [], ws, [], false⟩ := by
  simp [WalletSynchronizer.getBlocks, h]

theorem getBlocks_eq_of_error (ws : WalletSynchronizer) (daemon : IDaemon)
    (e : String)
    (hnb : ¬ daemon.getLocalDaemonBlockCount <
      ws.synchronizationStatus.getHeight)
    (hf : daemon.getWalletSyncData
        ws.synchronizationStatus.getBlockHashCheckpoints ws.startHeight
        ws.startTimestamp = Except.error e) :
    ws.getBlocks daemon = ⟨Except.ok [], ws, [], true⟩ := by
  simp [WalletSynchronizer.getBlocks, hnb, hf]

theorem getBlocks_eq_of_empty (ws : WalletSynchronizer) (daemon : IDaemon)
    (hnb : ¬ daemon.getLocalDaemonBlockCount <
      ws.synchronizationStatus.getHeight)
    (hf : daemon.getWalletSyncData
        ws.synchronizationStatus.getBlockHashCheckpoints ws.startHeight
        ws.startTimestamp = Except.ok []) :
    ws.getBlocks daemon = ⟨Except.ok [], ws, [], true⟩ := by
  simp [WalletSynchronizer.getBlocks, hnb, hf]

theorem getBlocks_eq_of_pin (ws : WalletSynchronizer) (daemon : IDaemon)
    (b0 : Block) (rest : List Block)
    (hts : ws.startTimestamp ≠ 0)
    (hnb : ¬ daemon.getLocalDaemonBlockCount <
      ws.synchronizationStatus.getHeight)
    (hf : daemon.getWalletSyncData
        ws.synchronizationStatus.getBlockHashCheckpoints ws.startHeight
        ws.startTimestamp = Except.ok (b0 :: rest)) :
    ws.getBlocks daemon =
      ⟨Except.ok (b0 :: rest),
       { ws with startTimestamp := 0, startHeight := b0.blockHeight },
       [(0, b0.blockHeight)], true⟩ := by
  simp only [WalletSynchronizer.getBlocks, hnb, if_false, hf]
  simp only [ne_eq, hts, not_false_eq_true, if_true]
  split_ifs <;> simp_all

theorem getBlocks_eq_of_mismatch (ws : WalletSynchronizer)
    (daemon : IDaemon) (b0 : Block) (rest : List Block)
    (hts : ws.startTimestamp = 0)
    (hnb : ¬ daemon.getLocalDaemonBlockCount <
      ws.synchronizationStatus.getHeight)
    (hcps : ws.synchronizationStatus.getBlockHashCheckpoints = [])
    (hf : daemon.getWalletSyncData
        ws.synchronizationStatus.getBlockHashCheckpoints ws.startHeight
        ws.startTimestamp = Except.ok (b0 :: rest))
    (hh : b0.blockHeight ≠ ws.startHeight) :
    ws.getBlocks daemon =
      ⟨Except.error (heightMismatchError ws.startHeight b0.blockHeight),
       ws, [], true⟩ := by
  simp only [WalletSynchronizer.getBlocks, hnb, if_false, hf]
  simp only [ne_eq, hts, not_true_eq_false, if_false, hcps,
    List.isEmpty_nil, if_true, hh, not_false_eq_true]

theorem getBlocks_eq_of_match (ws : WalletSynchronizer)
    (daemon : IDaemon) (b0 : Block) (rest : List Block)
    (hts : ws.startTimestamp = 0)
    (hnb : ¬ daemon.getLocalDaemonBlockCount <
      ws.synchronizationStatus.getHeight)
    (hcps : ws.synchronizationStatus.getBlockHashCheckpoints = [])
    (hf : daemon.getWalletSyncData
        ws.synchronizationStatus.getBlockHashCheckpoints ws.startHeight
        ws.startTimestamp = Except.ok (b0 :: rest))
    (hh : b0.blockHeight = ws.startHeight) :
    ws.getBlocks daemon = ⟨Except.ok (b0 :: rest), ws, [], true⟩ := by
  simp only [WalletSynchronizer.getBlocks, hnb, if_false, hf]
  simp only [ne_eq, hts, not_true_eq_false, if_false, hcps,
    List.isEmpty_nil, if_true, hh, not_true_eq_false]

theorem getBlocks_eq_of_checkpoints (ws : WalletSynchronizer)
    (daemon : IDaemon) (b0 : Block) (rest : List Block)
    (hts : ws.startTimestamp = 0)
    (hnb : ¬ daemon.getLocalDaemonBlockCount <
      ws.synchronizationStatus.getHeight)
    (hcps : ws.synchronizationStatus.getBlockHashCheckpoints ≠ [])
    (hf : daemon.getWalletSyncData
        ws.synchronizationStatus.getBlockHashCheckpoints ws.startHeight
        ws.startTimestamp = Except.ok (b0 :: rest)) :
    ws.getBlocks daemon = ⟨Except.ok (b0 :: rest), ws, [], true⟩ := by
  simp only [WalletSynchronizer.getBlocks, hnb, if_false, hf]
  simp only [ne_eq, hts, not_true_eq_false, if_false]
  rw [if_neg (by simp [List.isEmpty_iff, hcps])]

theorem getBlocks_preserves_zero (ws : WalletSynchronizer)
    (daemon : IDaemon) (h : ws.startTimestamp = 0) :
    (ws.getBlocks daemon).state = ws ∧
    (ws.getBlocks daemon).pinNotifications = [] := by
  by_cases hb : daemon.getLocalDaemonBlockCount <
      ws.synchronizationStatus.getHeight
  · simp [WalletSynchronizer.getBlocks, hb]
  · rcases hf : daemon.getWalletSyncData
        ws.synchronizationStatus.getBlockHashCheckpoints ws.startHeight
        ws.startTimestamp with e | blocks
    · simp [WalletSynchronizer.getBlocks, hb, hf]
    · rcases blocks with _ | ⟨b0, rest⟩
      · simp [WalletSynchronizer.getBlocks, hb, hf]
      · simp only [WalletSynchronizer.getBlocks, hb, if_false, hf]
        simp only [ne_eq, h, not_true_eq_false, if_false]
        split_ifs <;> exact ⟨rfl, rfl⟩

/-- C6: whenever the remote node's local height is strictly below the
wallet's current synced height, `getBlocks` returns an empty batch,
leaves the entire synchronizer state unchanged, issues no notification
and never contacts the node for blocks. -/
theorem getBlocks_node_behind (ws : WalletSynchronizer) (daemon : IDaemon)
    (h : daemon.getLocalDaemonBlockCount <
      ws.synchronizationStatus.getHeight) :
    ws.getBlocks daemon = ⟨Except.ok [], ws, [], false⟩ := by
  simp [WalletSynchronizer.getBlocks, h]

/-- C6 witness: wallet synced to height 600000, node at height 300000. -/
theorem getBlocks_node_behind_witness :
    WalletSynchronizer.getBlocks ⟨0, 200000, "viewKey", ⟨["h600000"], 600000⟩⟩
        ⟨300000, fun _ _ _ => Except.ok []⟩ =
      ⟨Except.ok [], ⟨0, 200000, "viewKey", ⟨["h600000"], 600000⟩⟩, [], false⟩ :=
  getBlocks_node_behind _ _ (by decide)

/-- C7: if the remote `getWalletSyncData` call fails with any error,
`getBlocks` returns an empty batch without propagating the exception and
leaves the synchronizer state (in particular the resume points
`startHeight` and `startTimestamp`) unchanged. -/
theorem getBlocks_fetch_error (ws : WalletSynchronizer) (daemon : IDaemon)
    (e : String)
    (hnb : ¬ daemon.getLocalDaemonBlockCount <
      ws.synchronizationStatus.getHeight)
    (hf : daemon.getWalletSyncData
        ws.synchronizationStatus.getBlockHashCheckpoints ws.startHeight
        ws.startTimestamp = Except.error e) :
    ws.getBlocks daemon = ⟨Except.ok [], ws, [], true⟩ := by
  simp [WalletSynchronizer.getBlocks, hnb, hf]

/-- C7 witness: a daemon whose sync-data call fails with a timeout. -/
theorem getBlocks_fetch_error_witness :
    WalletSynchronizer.getBlocks ⟨0, 200000, "viewKey", ⟨["h600000"], 600000⟩⟩
        ⟨700000, fun _ _ _ => Except.error "socket timeout"⟩ =
      ⟨Except.ok [], ⟨0, 200000, "viewKey", ⟨["h600000"], 600000⟩⟩, [], true⟩ :=
  getBlocks_fetch_error _ _ "socket timeout" (by decide) rfl

/-- C2: on a call returning a non-empty batch while `startTimestamp != 0`
on entry, the batch is returned, afterwards `startTimestamp == 0`,
`startHeight` equals the first returned block's height and the
`convertSyncTimestampToHeight` notification was issued exactly once; and
from any state with `startTimestamp == 0` (such as the post-state), every
later call keeps `startTimestamp` at 0 and issues no notification. -/
theorem getBlocks_pin_once (ws : WalletSynchronizer) (daemon : IDaemon)
    (b0 : Block) (rest : List Block)
    (hts : ws.startTimestamp ≠ 0)
    (hnb : ¬ daemon.getLocalDaemonBlockCount <
      ws.synchronizationStatus.getHeight)
    (hf : daemon.getWalletSyncData
        ws.synchronizationStatus.getBlockHashCheckpoints ws.startHeight
        ws.startTimestamp = Except.ok (b0 :: rest)) :
    (ws.getBlocks daemon).result = Except.ok (b0 :: rest) ∧
    (ws.getBlocks daemon).state.startTimestamp = 0 ∧
    (ws.getBlocks daemon).state.startHeight = b0.blockHeight ∧
    (ws.getBlocks daemon).pinNotifications.length = 1 ∧
    (∀ (ws2 : WalletSynchronizer) (daemon2 : IDaemon),
      ws2.startTimestamp = 0 →
        (ws2.getBlocks daemon2).state.startTimestamp = 0 ∧
        (ws2.getBlocks daemon2).pinNotifications = []) := by
  rw [getBlocks_eq_of_pin ws daemon b0 rest hts hnb hf]
  refine ⟨rfl, rfl, rfl, rfl, fun ws2 daemon2 h0 => ?_⟩
  have h := getBlocks_preserves_zero ws2 daemon2 h0
  exact ⟨by rw [h.1]; exact h0, h.2⟩

/-- C2 witness: start timestamp 12345, daemon returns one block at
height 777; afterwards the timestamp is 0, the height pinned to 777 and
one notification was issued. -/
theorem getBlocks_pin_once_witness :
    (WalletSynchronizer.getBlocks ⟨12345, 999, "viewKey", ⟨[], 0⟩⟩
      ⟨700000, fun _ _ _ =>
        Except.ok [⟨none, [], 777, "bh777", 1234⟩]⟩).state.startTimestamp = 0 ∧
    (WalletSynchronizer.getBlocks ⟨12345, 999, "viewKey", ⟨[], 0⟩⟩
      ⟨700000, fun _ _ _ =>
        Except.ok [⟨none, [], 777, "bh777", 1234⟩]⟩).state.startHeight = 777 ∧
    (WalletSynchronizer.getBlocks ⟨12345, 999, "viewKey", ⟨[], 0⟩⟩
      ⟨700000, fun _ _ _ =>
        Except.ok [⟨none, [], 777, "bh777", 1234⟩]⟩).pinNotifications.length
      = 1 := by
  have h := getBlocks_pin_once ⟨12345, 999, "viewKey", ⟨[], 0⟩⟩
    ⟨700000, fun _ _ _ => Except.ok [⟨none, [], 777, "bh777", 1234⟩]⟩
    ⟨none, [], 777, "bh777", 1234⟩ [] (by decide) (by decide) rfl
  exact ⟨h.2.1, by rw [h.2.2.1], h.2.2.2.1⟩

/-- C9: every `convertSyncTimestampToHeight` notification issued by
`getBlocks` carries timestamp argument 0 — the source zeroes
`startTimestamp` before reading it back to build the notification, so
the original non-zero start timestamp is never passed on. -/
theorem pinNotification_timestamp_zero (ws : WalletSynchronizer)
    (daemon : IDaemon) (p : Nat × Nat)
    (hp : p ∈ (ws.getBlocks daemon).pinNotifications) : p.1 = 0 := by
  by_cases hb : daemon.getLocalDaemonBlockCount <
      ws.synchronizationStatus.getHeight
  · simp [WalletSynchronizer.getBlocks, hb] at hp
  · rcases hf : daemon.getWalletSyncData
        ws.synchronizationStatus.getBlockHashCheckpoints ws.startHeight
        ws.startTimestamp with e | blocks
    · simp [WalletSynchronizer.getBlocks, hb, hf] at hp
    · rcases blocks with _ | ⟨b0, rest⟩
      · simp [WalletSynchronizer.getBlocks, hb, hf] at hp
      · by_cases hts : ws.startTimestamp = 0
        · have h := (getBlocks_preserves_zero ws daemon hts).2
          rw [h] at hp
          simp at hp
        · simp only [WalletSynchronizer.getBlocks, hb, if_false, hf,
            ne_eq, hts, not_false_eq_true, if_true] at hp
          split_ifs at hp <;> simp_all

/-- C9 witness: the pin issued for a first batch at height 777 carries
timestamp 0 even though the synchronizer started with timestamp 12345. -/
theorem pinNotification_timestamp_zero_witness :
    ((0, 777) ∈ (WalletSynchronizer.getBlocks ⟨12345, 999, "viewKey", ⟨[], 0⟩⟩
      ⟨700000, fun _ _ _ =>
        Except.ok [⟨none, [], 777, "bh777", 1234⟩]⟩).pinNotifications) ∧
    ((0, 777) : Nat × Nat).1 = 0 :=
  ⟨by decide,
   pinNotification_timestamp_zero ⟨12345, 999, "viewKey", ⟨[], 0⟩⟩
    ⟨700000, fun _ _ _ => Except.ok [⟨none, [], 777, "bh777", 1234⟩]⟩
    (0, 777) (by decide)⟩

/-- C8: serializing with `toJSON` and restoring with `fromJSON` yields a
synchronizer whose current height, checkpoint-hash window, `startHeight`,
`startTimestamp` and `privateViewKey` are identical to the original's. -/
theorem toJSON_fromJSON_roundTrip (ws : WalletSynchronizer) :
    (WalletSynchronizer.fromJSON ws.toJSON).synchronizationStatus.getHeight
      = ws.synchronizationStatus.getHeight ∧
    (WalletSynchronizer.fromJSON ws.toJSON).synchronizationStatus.getBlockHashCheckpoints
      = ws.synchronizationStatus.getBlockHashCheckpoints ∧
    (WalletSynchronizer.fromJSON ws.toJSON).startHeight = ws.startHeight ∧
    (WalletSynchronizer.fromJSON ws.toJSON).startTimestamp
      = ws.startTimestamp ∧
    (WalletSynchronizer.fromJSON ws.toJSON).privateViewKey
      = ws.privateViewKey :=
  ⟨rfl, rfl, rfl, rfl, rfl⟩

/-- C1: `getBlocks` fails fatally if and only if, on entry, the
checkpoint window is empty, `startTimestamp == 0`, the node is not
behind and returns a non-empty batch, and the first returned block's
height differs from `startHeight`; in that case the raised error message
spells out both the expected `startHeight` and the actual first-block
height, and in every other case the call does not raise. -/
theorem getBlocks_fatal_iff (ws : WalletSynchronizer) (daemon : IDaemon) :
    (∃ e, (ws.getBlocks daemon).result = Except.error e) ↔
      (¬ daemon.getLocalDaemonBlockCount <
          ws.synchronizationStatus.getHeight ∧
       ws.synchronizationStatus.getBlockHashCheckpoints = [] ∧
       ws.startTimestamp = 0 ∧
       ∃ b0 rest,
         daemon.getWalletSyncData
             ws.synchronizationStatus.getBlockHashCheckpoints ws.startHeight
             ws.startTimestamp = Except.ok (b0 :: rest) ∧
         b0.blockHeight ≠ ws.startHeight ∧
         (ws.getBlocks daemon).result =
           Except.error (heightMismatchError ws.startHeight b0.blockHeight) ∧
         heightMismatchError ws.startHeight b0.blockHeight =
           "Received unexpected block height from daemon. " ++ "Expected " ++
             toString ws.startHeight ++ ", got " ++
             toString b0.blockHeight ++ "\n") := by
  constructor
  · rintro ⟨e, he⟩
    by_cases hb : daemon.getLocalDaemonBlockCount <
        ws.synchronizationStatus.getHeight
    · rw [getBlocks_eq_of_behind ws daemon hb] at he
      simp at he
    · rcases hf : daemon.getWalletSyncData
          ws.synchronizationStatus.getBlockHashCheckpoints ws.startHeight
          ws.startTimestamp with err | blocks
      · rw [getBlocks_eq_of_error ws daemon err hb hf] at he
        simp at he
      · rcases blocks with _ | ⟨b0, rest⟩
        · rw [getBlocks_eq_of_empty ws daemon hb hf] at he
          simp at he
        · by_cases hts : ws.startTimestamp = 0
          · by_cases hcps : ws.synchronizationStatus.getBlockHashCheckpoints
                = []
            · by_cases hh : b0.blockHeight = ws.startHeight
              · rw [getBlocks_eq_of_match ws daemon b0 rest hts hb hcps hf
                  hh] at he
                simp at he
              · exact ⟨hb, hcps, hts, b0, rest, rfl, hh,
                  by rw [getBlocks_eq_of_mismatch ws daemon b0 rest hts hb
                    hcps hf hh], rfl⟩
            · rw [getBlocks_eq_of_checkpoints ws daemon b0 rest hts hb hcps
                hf] at he
              simp at he
          · rw [getBlocks_eq_of_pin ws daemon b0 rest hts hb hf] at he
            simp at he
  · rintro ⟨-, -, -, b0, rest, -, -, hres, -⟩
    exact ⟨heightMismatchError ws.startHeight b0.blockHeight, hres⟩

/-- C4 witness: one input of amount 7 whose key image is owned under
`owner1`, no effective outputs; the scan appends exactly one
non-coinbase record with fee `7 - 0 = 7`, the transaction's hash,
payment ID and unlock time, and marks the key image spent. -/
theorem processTransaction_spec_witness :
    processTransaction ⟨fun ki => (ki == "ki1", "owner1")⟩
        ⟨⟨[], "txHash1", "txPub1", 9⟩, "pid1", [⟨7, "ki1"⟩]⟩ 3 4 ⟨[], []⟩ =
      ⟨[⟨[("owner1", 7)], "txHash1", 7, 3, 4, "pid1", 9, false⟩],
       [("owner1", "ki1")]⟩ := by
  have h := processTransaction_spec ⟨fun ki => (ki == "ki1", "owner1")⟩
    ⟨⟨[], "txHash1", "txPub1", 9⟩, "pid1", [⟨7, "ki1"⟩]⟩ 3 4 ⟨[], []⟩
    7 [("owner1", 7)] ⟨[], [("owner1", "ki1")]⟩
    0 [("owner1", 7)] ⟨[], [("owner1", "ki1")]⟩ rfl rfl
  rw [h.2.2 (by decide)]
  rfl

end WalletBackend
